import Mathlib

/-!
Verification development for the VolE-ECS entity-component framework
(`src/main.cpp`).  The C++ framework is shallowly embedded: heap pointers
become indices (a component pointer is the component's index in the owning
entity's component sequence, an entity pointer is a manager-assigned id),
`std::bitset<32>` and `std::array<_,32>` become functions out of `Fin 32`,
fatal `assert`s become `Except` errors, and the float delta-time arithmetic
becomes exact rational arithmetic.
-/

namespace VolE

/-- `maxComponents` in the source. -/
def maxComponents : Nat := 32

/-- `maxGroups` in the source. -/
def maxGroups : Nat := 32

/-- Pointwise update of a 32-slot table, modelling a single write into a
`std::bitset<32>` or `std::array<_,32>` slot. -/
def updFn {α : Type} (f : Fin 32 → α) (i : Fin 32) (v : α) : Fin 32 → α :=
  fun j => if j = i then v else f j

/-- State of the component-id registry: the `static ComponentID lastID`
counter inside `genUComponentID` together with the per-kind memoized
`static ComponentID typeID` values created by the instantiations of
`getComponentTypeID<T>` (component kinds are the keys). -/
structure Registry where
  lastID : Nat
  table : List (Nat × Nat)
deriving DecidableEq

/-- The registry at process start: counter at 0, no kind memoized. -/
def Registry.init : Registry := ⟨0, []⟩

/-- `genUComponentID`: returns the current counter value and post-increments
it.  The source performs no capacity check here. -/
def genUComponentID (r : Registry) : Nat × Registry :=
  (r.lastID, ⟨r.lastID + 1, r.table⟩)

/-- `getComponentTypeID<T>` for kind `k`: the first call for a kind draws a
fresh id from `genUComponentID` and memoizes it; subsequent calls for the
same kind return the memoized id. -/
def getComponentTypeID (k : Nat) (r : Registry) : Nat × Registry :=
  match r.table.lookup k with
  | some i => (i, r)
  | none =>
    let p := genUComponentID r
    (p.1, ⟨p.2.lastID, (k, p.1) :: p.2.table⟩)

/-- Ids handed out by running `getComponentTypeID` over a list of kind
requests in order, starting from registry state `r`. -/
def assignFrom (r : Registry) : List Nat → List Nat
  | [] => []
  | k :: ks =>
    let p := getComponentTypeID k r
    p.1 :: assignFrom p.2 ks

/-- Ids assigned to a sequence of kind requests in a fresh process. -/
def assignIDs (ks : List Nat) : List Nat := assignFrom Registry.init ks

/-- The fatal assertion conditions raised by `Entity` operations. -/
inductive EFail where
  | duplicateCapability
  | missingCapability
deriving DecidableEq

/-- Kind-specific component state.  `counter`, `shape` and `kill` embed the
three concrete components of `main.cpp`: `CounterComponent` holds its float
counter, `ShapeComponent` its (vertical) position, and `KillComponent` its
two sibling pointers `cCounter`/`cShape` (indices into the owner's component
sequence; `none` while unresolved).  `specKill` is the spec-only scenario
component, see below.  `plain` stands for any further kind with the base
class's no-op behaviour. -/
inductive CompData where
  | counter (value : ℚ)
  | shape (y : ℚ)
  | kill (cCounter : Option Nat) (cShape : Option Nat)
  | specKill (threshold : ℚ) (cCounter : Option Nat)
  | plain (tag : Nat)
deriving DecidableEq

/-- A component object: the `mEntity` back-pointer is modelled by the flag
`ownerSet` (`false` ⇔ null, `true` ⇔ pointing at the owning entity), plus
the kind-specific state. -/
structure Comp where
  ownerSet : Bool
  data : CompData
deriving DecidableEq

/-- `Component::setOwnership`: records the back-pointer to the owner. -/
def Comp.setOwnership (c : Comp) : Comp := { c with ownerSet := true }

/-- An entity: heap address `eid` (the identity by which group lists refer
to it), the `mAlive` flag, the owned insertion-ordered component sequence,
the 32-slot pointer table `mComponentArray` (slots hold component indices;
`none` is the null pointer), the capability bitset and the group bitset. -/
structure Entity where
  eid : Nat
  mAlive : Bool
  mComponentsContainer : List Comp
  mComponentArray : Fin 32 → Option Nat
  mComponentBitset : Fin 32 → Bool
  mGroupBitset : Fin 32 → Bool

/-- A fresh entity as constructed by `EntityManager::addEntity` (alive, no
components, all pointers null, all bits clear) at heap address `i`. -/
def Entity.fresh (i : Nat) : Entity :=
  ⟨i, true, [], fun _ => none, fun _ => false, fun _ => false⟩

/-- `Entity::hasComponent<T>` for the kind with id `t`: a bit test. -/
def Entity.hasComponent (e : Entity) (t : Fin 32) : Bool :=
  e.mComponentBitset t

/-- `Entity::hasGroup`. -/
def Entity.hasGroup (e : Entity) (g : Fin 32) : Bool :=
  e.mGroupBitset g

/-- `Entity::isAlive`. -/
def Entity.isAlive (e : Entity) : Bool := e.mAlive

/-- `Entity::destroyObj`: sets the alive flag to false. -/
def Entity.destroyObj (e : Entity) : Entity := { e with mAlive := false }

/-- `Entity::deleteGroup`: clears the group bit (nothing else). -/
def Entity.deleteGroup (e : Entity) (g : Fin 32) : Entity :=
  { e with mGroupBitset := updFn e.mGroupBitset g false }

/-- `Entity::getComponent<T>`: asserts the capability bit, then dereferences
the `mComponentArray` slot, yielding the component's address (its index in
the owning sequence).  A set bit over a null slot would be a null-pointer
dereference in C++; it is mapped to the same fatal outcome. -/
def Entity.getComponent (e : Entity) (t : Fin 32) : Except EFail Nat :=
  if e.mComponentBitset t then
    match e.mComponentArray t with
    | some i => .ok i
    | none => .error .missingCapability
  else .error .missingCapability

/-- Id the registry assigns to `CounterComponent`: `main.cpp` instantiates
`getComponentTypeID` for the three concrete kinds in the order Counter,
Shape, Kill, so their memoized ids are 0, 1, 2. -/
def counterTypeID : Fin 32 := 0

/-- Id the registry assigns to `ShapeComponent` (see `counterTypeID`). -/
def shapeTypeID : Fin 32 := 1

/-- Id the registry assigns to `KillComponent` (see `counterTypeID`). -/
def killTypeID : Fin 32 := 2

/-- The virtual `initComponent` hook, run on component `c` whose owning
entity is in state `e`.  The base class, `CounterComponent` and
`ShapeComponent` are no-ops; `KillComponent::initComponent` resolves its
pointers to the sibling `CounterComponent` and `ShapeComponent` through
`Entity::getComponent`, whose assertion makes the whole call fatal when a
sibling is absent.  The spec-only `specKill` resolves the counter sibling
only. -/
def Comp.initComponent (c : Comp) (e : Entity) : Except EFail Comp :=
  match c.data with
  | .kill _ _ => do
    let iC ← e.getComponent counterTypeID
    let iS ← e.getComponent shapeTypeID
    pure { c with data := .kill (some iC) (some iS) }
  | .specKill th _ => do
    let iC ← e.getComponent counterTypeID
    pure { c with data := .specKill th (some iC) }
  | _ => pure c

/-- Steps 1–4 of `Entity::addComponent<T>` together with the lookup-table
and bitset writes: allocate the component, set its ownership back-pointer,
append it to the owned sequence, point `mComponentArray[id]` at it and set
its capability bit.  (`initComponent` has not run yet.) -/
def Entity.installComponent (e : Entity) (t : Fin 32) (c : Comp) : Entity :=
  { e with
    mComponentsContainer := e.mComponentsContainer ++ [c.setOwnership],
    mComponentArray := updFn e.mComponentArray t (some e.mComponentsContainer.length),
    mComponentBitset := updFn e.mComponentBitset t true }

/-- `Entity::addComponent<T>` for kind id `t` with freshly constructed state
`c`: asserts that the kind is not already present, installs the component,
then invokes its `initComponent` hook (whose writes to its own fields land
in the new slot) and returns the updated entity together with the new
component's address. -/
def Entity.addComponent (e : Entity) (t : Fin 32) (c : Comp) :
    Except EFail (Entity × Nat) :=
  if e.hasComponent t then .error .duplicateCapability
  else
    let idx := e.mComponentsContainer.length
    let e1 := e.installComponent t c
    match c.setOwnership.initComponent e1 with
    | .error f => .error f
    | .ok c1 =>
      .ok ({ e1 with mComponentsContainer := e1.mComponentsContainer.set idx c1 }, idx)

/-- The entity's state after an `addComponent` call, whether or not it
succeeded: the fatal assertion aborts before any mutation, so a failed call
leaves the entity exactly as it was. -/
def Entity.afterAddAttempt (e : Entity) (t : Fin 32) (c : Comp) : Entity :=
  match e.addComponent t c with
  | .ok r => r.1
  | .error _ => e

/-- Reads `cCounter->counter` through component address `i` in entity `e`;
`none` when the address or the cast is invalid (never the case in the
embedded programs). -/
def Entity.counterValueAt (e : Entity) (i : Nat) : Option ℚ :=
  match e.mComponentsContainer.get? i with
  | some c =>
    match c.data with
    | .counter v => some v
    | _ => none
  | none => none

/-- The virtual `updateComponent(dt)` hook: `CounterComponent` adds `dt` to
its counter; `ShapeComponent` moves down by `200*dt`; `KillComponent` reads
the counter through its resolved sibling pointer and destroys the owning
entity once it reaches the literal threshold `2` of the source; `specKill`
does the same against its own threshold; the base class is a no-op.
Returns the component's new state paired with the owning entity's. -/
def Comp.updateComponent (c : Comp) (e : Entity) (dt : ℚ) : Comp × Entity :=
  match c.data with
  | .counter v => ({ c with data := .counter (v + dt) }, e)
  | .shape y => ({ c with data := .shape (y + 200 * dt) }, e)
  | .kill iC _ =>
    match iC with
    | some i =>
      match e.counterValueAt i with
      | some v => if 2 ≤ v then (c, e.destroyObj) else (c, e)
      | none => (c, e)
    | none => (c, e)
  | .specKill th iC =>
    match iC with
    | some i =>
      match e.counterValueAt i with
      | some v => if th ≤ v then (c, e.destroyObj) else (c, e)
      | none => (c, e)
    | none => (c, e)
  | .plain _ => (c, e)

/-- One iteration of the `Entity::updateObj` loop: run component `i`'s
`updateComponent`, writing the component's own mutations back into its
slot. -/
def Entity.updateStep (dt : ℚ) (e : Entity) (i : Nat) : Entity :=
  match e.mComponentsContainer.get? i with
  | none => e
  | some c =>
    let p := c.updateComponent e dt
    { p.2 with mComponentsContainer := p.2.mComponentsContainer.set i p.1 }

/-- `Entity::updateObj(dt)`: forwards `updateComponent(dt)` to every owned
component in insertion order; a component's writes (to its own state, or to
the alive flag through the back-pointer) are visible to later components in
the same pass. -/
def Entity.updateObj (e : Entity) (dt : ℚ) : Entity :=
  (List.range e.mComponentsContainer.length).foldl (Entity.updateStep dt) e

/-- The entity manager: the owning entity sequence and the 32 per-group
lists of entity references (heap addresses, i.e. `eid`s).  `nextId` models
heap allocation handing out fresh addresses. -/
structure EntityManager where
  nextId : Nat
  mEntityContainer : List Entity
  mGroupedEntities : Fin 32 → List Nat

/-- The freshly constructed manager. -/
def EntityManager.init : EntityManager := ⟨0, [], fun _ => []⟩

/-- `EntityManager::addEntity`: heap-allocates a fresh alive entity, appends
it to the owning sequence and returns (the manager with) its address. -/
def EntityManager.addEntity (m : EntityManager) : EntityManager × Nat :=
  (⟨m.nextId + 1, m.mEntityContainer ++ [Entity.fresh m.nextId], m.mGroupedEntities⟩,
   m.nextId)

/-- `EntityManager::addToGroup`: appends the entity reference to the
group's list. -/
def EntityManager.addToGroup (m : EntityManager) (p : Nat) (g : Fin 32) :
    EntityManager :=
  { m with mGroupedEntities := updFn m.mGroupedEntities g (m.mGroupedEntities g ++ [p]) }

/-- `EntityManager::getEntitiesByGroup`: the group's current list. -/
def EntityManager.getEntitiesByGroup (m : EntityManager) (g : Fin 32) : List Nat :=
  m.mGroupedEntities g

/-- Dereference an entity address: the entity in the owning sequence with
that address. -/
def EntityManager.findEntity (m : EntityManager) (p : Nat) : Option Entity :=
  m.mEntityContainer.find? (fun e => e.eid == p)

/-- A write through an entity pointer: apply `f` to the entity at address
`p` in the owning sequence. -/
def EntityManager.modifyEntity (m : EntityManager) (p : Nat) (f : Entity → Entity) :
    EntityManager :=
  { m with mEntityContainer := m.mEntityContainer.map (fun e => if e.eid = p then f e else e) }

/-- `Entity::addGroup` invoked on the entity at address `p`: sets the
entity's group bit, then calls `mManager.addToGroup(this, group)`. -/
def EntityManager.addGroup (m : EntityManager) (p : Nat) (g : Fin 32) :
    EntityManager :=
  (m.modifyEntity p (fun e => { e with mGroupBitset := updFn e.mGroupBitset g true })).addToGroup p g

/-- `Entity::deleteGroup` invoked on the entity at address `p`: clears the
bit only; the manager's group lists are not consulted. -/
def EntityManager.deleteGroupE (m : EntityManager) (p : Nat) (g : Fin 32) :
    EntityManager :=
  m.modifyEntity p (fun e => e.deleteGroup g)

/-- `Entity::destroyObj` invoked on the entity at address `p`. -/
def EntityManager.destroyEntity (m : EntityManager) (p : Nat) : EntityManager :=
  m.modifyEntity p Entity.destroyObj

/-- The `remove_if` predicate of the group-cleanup loop, evaluated through
the entity pointer `p` against manager state `m`: true when the entity is
dead or no longer flags membership of group `g`.  (A dangling pointer —
address absent from the owning sequence — would be undefined behaviour in
C++; the manager's own operations never produce one before the sweep runs,
and the model maps it to removal.) -/
def EntityManager.groupEntryStale (m : EntityManager) (g : Fin 32) (p : Nat) : Bool :=
  match m.findEntity p with
  | some e => !e.isAlive || !e.hasGroup g
  | none => true

/-- The body of the group-cleanup loop of `EntityManager::updateManager`:
`erase(remove_if(...))` on the list of group `i`, keeping, in order, the
entries that are not stale. -/
def EntityManager.groupCleanupStep (acc : EntityManager) (i : Fin 32) : EntityManager :=
  { acc with mGroupedEntities := updFn acc.mGroupedEntities i ((acc.mGroupedEntities i).filter (fun p => !acc.groupEntryStale i p)) }

/-- The group-cleanup loop of `EntityManager::updateManager`: for each group
index in turn, erase that group's stale entries. -/
def EntityManager.groupCleanupLoop (m : EntityManager) (l : List (Fin 32)) :
    EntityManager :=
  l.foldl EntityManager.groupCleanupStep m

/-- `EntityManager::updateManager(dt)`: erase stale entries from the lists
of groups `0..31`, erase dead entities from the owning sequence (destroying
them), then run `updateObj(dt)` over the remaining sequence in order. -/
def EntityManager.updateManager (m : EntityManager) (dt : ℚ) : EntityManager :=
  let m1 := m.groupCleanupLoop (List.finRange 32)
  let m2 := { m1 with mEntityContainer := m1.mEntityContainer.filter (fun e => e.isAlive) }
  { m2 with mEntityContainer := m2.mEntityContainer.map (fun e => e.updateObj dt) }

/-- Phase 1 in the spec's words: for every group simultaneously, keep
exactly the entries whose entity is alive and still has that group's bit,
judging by the flags of the pre-sweep state `m`. -/
def specGroupCleanup (m : EntityManager) : EntityManager :=
  { m with mGroupedEntities :=
      fun g => (m.mGroupedEntities g).filter (fun p => !m.groupEntryStale g p) }

/-- Phase 2 in the spec's words: remove every dead entity from the owning
sequence. -/
def specEntityCleanup (m : EntityManager) : EntityManager :=
  { m with mEntityContainer := m.mEntityContainer.filter (fun e => e.isAlive) }

/-- Phase 3 in the spec's words: invoke `update(dt)` on every surviving
entity, in sequence order. -/
def specUpdatePhase (m : EntityManager) (dt : ℚ) : EntityManager :=
  { m with mEntityContainer := m.mEntityContainer.map (fun e => e.updateObj dt) }

/-- `EntityManager`-side helper used to build scenarios: attach a component
to the entity at address `p` through the reference `addEntity` returned
(`entity.addComponent<T>(...)` in the source). -/
def EntityManager.attachComponent (m : EntityManager) (p : Nat) (t : Fin 32) (c : Comp) :
    Except EFail EntityManager :=
  match m.findEntity p with
  | none => .error .missingCapability
  | some e =>
    match e.addComponent t c with
    | .error f => .error f
    | .ok r => .ok (m.modifyEntity p (fun _ => r.1))

/-- Freshly constructed `CounterComponent` state: `new CounterComponent()`
value-initializes, so the counter starts at 0 and the back-pointer is
null. -/
def counterComp : Comp := ⟨false, .counter 0⟩

/-- Freshly constructed `ShapeComponent` state at vertical position `y`
(the source draws the position from a random distribution; the position is
a parameter here). -/
def shapeComp (y : ℚ) : Comp := ⟨false, .shape y⟩

/-- Freshly constructed `KillComponent` state: sibling pointers not yet
resolved. -/
def killComp : Comp := ⟨false, .kill none none⟩

/-- Modelled from the spec: the kill component of the §8 scenario
("kill component (threshold 3)") is not part of `src/` — the source's
`KillComponent` hard-codes threshold 2 and also requires a `ShapeComponent`
sibling.  Following the spec's words, this component marks its entity dead
once the counter sibling's value reaches the given threshold. -/
def specKillComp (threshold : ℚ) : Comp := ⟨false, .specKill threshold none⟩

/-- The §8 scenario, built through the manager's API: spawn one entity,
attach a counter component (value 0, incremented by `dt` each update) and a
threshold-3 kill component.  In this scenario's process, the registry hands
the counter kind id 0 and the kill kind id 1. -/
def scenarioManager : Except EFail EntityManager :=
  let q := EntityManager.init.addEntity
  match q.1.attachComponent q.2 counterTypeID counterComp with
  | .error f => .error f
  | .ok m1 =>
    match m1.attachComponent q.2 (1 : Fin 32) (specKillComp 3) with
    | .error f => .error f
    | .ok m2 => .ok m2

/-- The successfully built scenario state (see `scenarioManager`). -/
def scenarioM : EntityManager := scenarioManager.toOption.getD EntityManager.init

/-- An entity built in the source's order: counter, then shape, then kill.
`KillComponent::initComponent` resolves both siblings, so this succeeds. -/
def codeOrderEntity : Except EFail (Entity × Nat) :=
  match (Entity.fresh 0).addComponent counterTypeID counterComp with
  | .error f => .error f
  | .ok p1 =>
    match p1.1.addComponent shapeTypeID (shapeComp 0) with
    | .error f => .error f
    | .ok p2 => p2.1.addComponent killTypeID killComp

/-- An entity that attaches the kill component after the counter but before
the shape: `KillComponent::initComponent` then fetches a missing
capability. -/
def killBeforeShapeEntity : Except EFail (Entity × Nat) :=
  match (Entity.fresh 0).addComponent counterTypeID counterComp with
  | .error f => .error f
  | .ok p1 => p1.1.addComponent killTypeID killComp

/-! ### Helper lemmas -/

theorem updFn_same {α : Type} (f : Fin 32 → α) (i : Fin 32) (v : α) : updFn f i v i = v := by
  simp [updFn]

theorem updFn_other {α : Type} (f : Fin 32 → α) (i j : Fin 32) (v : α) (h : j ≠ i) :
    updFn f i v j = f j := by
  simp [updFn, h]

theorem set_append_length {α : Type} (l : List α) (a b : α) :
    (l ++ [a]).set l.length b = l ++ [b] := by
  induction l with
  | nil => rfl
  | cons x xs ih => simp [List.set, ih]

/-- A second `getComponentTypeID` call for the same kind returns the id
memoized by the first call and leaves the registry untouched. -/
theorem getComponentTypeID_idem (k : Nat) (r : Registry) :
    getComponentTypeID k (getComponentTypeID k r).2 =
      ((getComponentTypeID k r).1, (getComponentTypeID k r).2) := by
  unfold getComponentTypeID genUComponentID
  cases h : r.table.lookup k with
  | some i => simp [h]
  | none => simp [h, List.lookup]

/-- Running the registry over kinds none of which is memoized yet hands out
the consecutive ids starting at the current counter. -/
theorem assignFrom_fresh (ks : List Nat) :
    ∀ r : Registry, ks.Nodup → (∀ k ∈ ks, r.table.lookup k = none) →
      assignFrom r ks = List.range' r.lastID ks.length := by
  induction ks with
  | nil => intro r _ _; rfl
  | cons k ks ih =>
    intro r hnd hfresh
    have hk : r.table.lookup k = none := hfresh k (List.mem_cons_self k ks)
    have hnd' := hnd.of_cons
    have hknot : k ∉ ks := (List.nodup_cons.1 hnd).1
    have hfresh' : ∀ k' ∈ ks, ((k, r.lastID) :: r.table).lookup k' = none := by
      intro k' hk'
      have hne : (k' == k) = false := by
        simp only [beq_eq_false_iff_ne, ne_eq]
        intro hEq; exact hknot (hEq ▸ hk')
      simp [List.lookup, hne, hfresh k' (List.mem_cons_of_mem _ hk')]
    simp only [assignFrom, getComponentTypeID, genUComponentID, hk]
    rw [ih _ hnd' hfresh']
    simp [List.range']

/-- From a fresh process, `K` distinct kinds receive the ids `0..K-1` in
request order. -/
theorem assignIDs_eq_range (ks : List Nat) (h : ks.Nodup) :
    assignIDs ks = List.range ks.length := by
  rw [assignIDs, assignFrom_fresh ks Registry.init h (by intro k _; rfl),
    List.range_eq_range']
  rfl

theorem EntityManager.ext' (m1 m2 : EntityManager) (h1 : m1.nextId = m2.nextId)
    (h2 : m1.mEntityContainer = m2.mEntityContainer)
    (h3 : ∀ g, m1.mGroupedEntities g = m2.mGroupedEntities g) : m1 = m2 := by
  cases m1; cases m2
  simp only [EntityManager.mk.injEq]
  exact ⟨h1, h2, funext h3⟩

theorem groupEntryStale_congr (m m' : EntityManager) (g : Fin 32) (p : Nat)
    (h : m.mEntityContainer = m'.mEntityContainer) :
    m.groupEntryStale g p = m'.groupEntryStale g p := by
  simp [EntityManager.groupEntryStale, EntityManager.findEntity, h]

theorem groupCleanupLoop_cons (m : EntityManager) (i : Fin 32) (l : List (Fin 32)) :
    m.groupCleanupLoop (i :: l) = (m.groupCleanupStep i).groupCleanupLoop l := rfl

theorem groupCleanupLoop_container (l : List (Fin 32)) :
    ∀ m : EntityManager, (m.groupCleanupLoop l).mEntityContainer = m.mEntityContainer := by
  induction l with
  | nil => intro m; rfl
  | cons i l ih => intro m; rw [groupCleanupLoop_cons, ih]; rfl

theorem groupCleanupLoop_nextId (l : List (Fin 32)) :
    ∀ m : EntityManager, (m.groupCleanupLoop l).nextId = m.nextId := by
  induction l with
  | nil => intro m; rfl
  | cons i l ih => intro m; rw [groupCleanupLoop_cons, ih]; rfl

theorem groupCleanupLoop_groups (l : List (Fin 32)) :
    ∀ m : EntityManager, l.Nodup → ∀ j : Fin 32,
      (m.groupCleanupLoop l).mGroupedEntities j =
        if j ∈ l then (m.mGroupedEntities j).filter (fun p => !m.groupEntryStale j p)
        else m.mGroupedEntities j := by
  induction l with
  | nil => intro m _ j; simp [EntityManager.groupCleanupLoop]
  | cons i l ih =>
    intro m hnd j
    have hi : i ∉ l := (List.nodup_cons.1 hnd).1
    have hnd' := hnd.of_cons
    rw [groupCleanupLoop_cons, ih _ hnd' j]
    by_cases hji : j = i
    · subst hji
      simp only [if_neg hi, List.mem_cons, true_or, if_pos]
      exact updFn_same _ _ _
    · have hgroups : (m.groupCleanupStep i).mGroupedEntities j = m.mGroupedEntities j :=
        updFn_other _ _ _ _ hji
      by_cases hjl : j ∈ l
      · simp only [if_pos hjl, hgroups, List.mem_cons, hjl, or_true, if_pos]
        rfl
      · have : j ∉ (i :: l) := by
          simp [List.mem_cons, hji, hjl]
        simp only [if_neg hjl, if_neg this, hgroups]

/-- `updateManager` is exactly the three spec phases, in order: group
cleanup judged on the pre-sweep flags, then dead-entity removal, then the
update pass over the survivors. -/
theorem updateManager_phases (m : EntityManager) (dt : ℚ) :
    m.updateManager dt = specUpdatePhase (specEntityCleanup (specGroupCleanup m)) dt := by
  have hg : m.groupCleanupLoop (List.finRange 32) = specGroupCleanup m := by
    apply EntityManager.ext'
    · exact groupCleanupLoop_nextId _ m
    · exact groupCleanupLoop_container _ m
    · intro g
      rw [groupCleanupLoop_groups _ m (List.nodup_finRange 32) g,
        if_pos (List.mem_finRange g)]
      rfl
  simp only [EntityManager.updateManager, hg]
  rfl

theorem updateComponent_snd (c : Comp) (e : Entity) (dt : ℚ) :
    (c.updateComponent e dt).2 = e ∨ (c.updateComponent e dt).2 = e.destroyObj := by
  rcases c with ⟨o, d⟩
  cases d with
  | counter v => left; rfl
  | shape y => left; rfl
  | plain n => left; rfl
  | kill iC iS =>
    cases iC with
    | none => left; rfl
    | some i =>
      cases h : e.counterValueAt i with
      | none => simp [Comp.updateComponent, h]
      | some v =>
        simp only [Comp.updateComponent, h]
        by_cases hv : 2 ≤ v
        · right; simp [hv]
        · left; simp [hv]
  | specKill th iC =>
    cases iC with
    | none => left; rfl
    | some i =>
      cases h : e.counterValueAt i with
      | none => simp [Comp.updateComponent, h]
      | some v =>
        simp only [Comp.updateComponent, h]
        by_cases hv : th ≤ v
        · right; simp [hv]
        · left; simp [hv]

theorem updateStep_eid (dt : ℚ) (e : Entity) (i : Nat) :
    (Entity.updateStep dt e i).eid = e.eid := by
  unfold Entity.updateStep
  cases h : e.mComponentsContainer.get? i with
  | none => rfl
  | some c =>
    show ((c.updateComponent e dt).2).eid = e.eid
    rcases updateComponent_snd c e dt with h2 | h2
    · rw [h2]
    · rw [h2]; rfl

theorem foldl_updateStep_eid (dt : ℚ) (l : List Nat) :
    ∀ e : Entity, (l.foldl (Entity.updateStep dt) e).eid = e.eid := by
  induction l with
  | nil => intro e; rfl
  | cons i l ih => intro e; rw [List.foldl_cons, ih]; exact updateStep_eid dt e i

theorem updateObj_eid (e : Entity) (dt : ℚ) : (e.updateObj dt).eid = e.eid :=
  foldl_updateStep_eid dt _ e

theorem destroyObj_eid (e : Entity) : e.destroyObj.eid = e.eid := rfl

theorem findEntity_eid (m : EntityManager) (p : Nat) (e0 : Entity)
    (h : m.findEntity p = some e0) : e0.eid = p := by
  have h2 : m.mEntityContainer.find? (fun e => e.eid == p) = some e0 := h
  have h3 := List.find?_some h2
  simp only [beq_iff_eq] at h3
  exact h3

theorem findEntity_modifyEntity (m : EntityManager) (p : Nat) (f : Entity → Entity)
    (hf : ∀ e, (f e).eid = e.eid) :
    (m.modifyEntity p f).findEntity p =
      Option.map (fun e => if e.eid = p then f e else e) (m.findEntity p) := by
  show (m.mEntityContainer.map fun e => if e.eid = p then f e else e).find? (fun e => e.eid == p) =
    Option.map _ (m.mEntityContainer.find? (fun e => e.eid == p))
  induction m.mEntityContainer with
  | nil => rfl
  | cons a l ih =>
    by_cases ha : a.eid = p
    · have h1 : ((if a.eid = p then f a else a).eid == p) = true := by
        rw [if_pos ha, hf a]; exact beq_iff_eq.2 ha
      have h2 : (a.eid == p) = true := beq_iff_eq.2 ha
      simp [List.find?, h1, h2]
    · have h1 : ((if a.eid = p then f a else a).eid == p) = false := by
        rw [if_neg ha]; exact beq_eq_false_iff_ne.2 ha
      have h2 : (a.eid == p) = false := beq_eq_false_iff_ne.2 ha
      simp only [List.map_cons, List.find?, h1, h2]
      exact ih

/-! ### Claim theorems -/

/-- C1: for every manager state and every `dt`, `updateManager(dt)` performs
exactly the three phases in order — group cleanup (dropping entries whose
entity is dead or whose group bit is clear), removal of dead entities from
the owning sequence, then `update(dt)` on every survivor in sequence order —
and the group cleanup judges the alive/membership flags of the pre-sweep
state, i.e. before any entity is destroyed in phase 2. -/
theorem tick_three_ordered_phases :
    ∀ (m : EntityManager) (dt : ℚ),
      m.updateManager dt = specUpdatePhase (specEntityCleanup (specGroupCleanup m)) dt :=
  updateManager_phases

/-- C2 counterexample: requesting a 33rd distinct component kind does not
abort — `genUComponentID` has no assertion — and the registry assigns it the
identifier 32, at the 32-slot capacity, contradicting the claim that no
identifier at or beyond 32 is ever assigned. -/
theorem thirtyThird_kind_gets_id32 :
    (List.range 33).Nodup ∧ (List.range 33).length = 33 ∧
      (assignIDs (List.range 33)).getLast? = some 32 :=
  ⟨(List.nodup_range _), by decide, by decide⟩

/-- C2 amended: requesting a 33rd distinct component kind is not trapped:
the shared counter keeps counting and assigns the out-of-capacity
identifier 32 (which the 32-slot containers then index without any bounds
check — undefined behaviour in C++, not a fatal assertion); likewise
`addToGroup` performs no check of the group id. -/
theorem registry_overflow_unchecked (ks : List Nat) (h1 : ks.Nodup)
    (h2 : ks.length = 33) : (assignIDs ks).getLast? = some 32 := by
  rw [assignIDs_eq_range ks h1, h2]
  decide

/-- Witness for `registry_overflow_unchecked` at the 33 kinds `0..32`. -/
theorem registry_overflow_unchecked_witness :
    (assignIDs (List.range 33)).getLast? = some 32 :=
  registry_overflow_unchecked (List.range 33) (List.nodup_range _) (by decide)

/-- C4 (spec-modelled kill component): in the §8 scenario — one entity with
a counter component starting at 0 and incremented by `dt` each update plus a
threshold-3 kill component — three `tick(1.0)` calls leave the entity still
present but marked dead (it is alive after the second), and the fourth
`tick(1.0)` drops the manager's entity count from 1 to 0. -/
theorem counter_kill_scenario :
    scenarioManager = Except.ok scenarioM
  ∧ scenarioM.mEntityContainer.length = 1
  ∧ ((scenarioM.updateManager 1).updateManager 1).mEntityContainer.all
      (fun e => e.isAlive) = true
  ∧ (((scenarioM.updateManager 1).updateManager 1).updateManager 1).mEntityContainer.length = 1
  ∧ (((scenarioM.updateManager 1).updateManager 1).updateManager 1).mEntityContainer.all
      (fun e => !e.isAlive) = true
  ∧ ((((scenarioM.updateManager 1).updateManager 1).updateManager 1).updateManager 1).mEntityContainer.length = 0 := by
  refine ⟨?_, ?_, ?_, ?_, ?_, ?_⟩ <;> with_unfolding_all rfl

/-- C5: adding a component kind the entity already holds fails with the
fatal duplicate-capability assertion, and the failed call leaves the
entity's state — component count, lookup table, capability bits and
component sequence — exactly as it was (the assertion fires before any
mutation). -/
theorem duplicate_addComponent_rejected (e : Entity) (t : Fin 32) (c : Comp)
    (h : e.hasComponent t = true) :
    e.addComponent t c = .error .duplicateCapability ∧ e.afterAddAttempt t c = e := by
  have h1 : e.addComponent t c = .error .duplicateCapability := by
    simp [Entity.addComponent, h]
  exact ⟨h1, by simp [Entity.afterAddAttempt, h1]⟩

/-- Witness for `duplicate_addComponent_rejected`: an entity that holds the
kind with id 0 rejects a second add of that kind unchanged. -/
theorem duplicate_addComponent_rejected_witness :
    ((Entity.fresh 0).installComponent 0 counterComp).addComponent 0 counterComp
        = .error .duplicateCapability
  ∧ ((Entity.fresh 0).installComponent 0 counterComp).afterAddAttempt 0 counterComp
        = (Entity.fresh 0).installComponent 0 counterComp :=
  duplicate_addComponent_rejected _ 0 counterComp (by decide)

/-- C6: `getComponentTypeID` is idempotent per kind — a repeated call
returns the memoized id and leaves the registry unchanged — and injective
across kinds: any `K ≤ 32` distinct kinds receive pairwise distinct ids,
all in `[0, 32)`. -/
theorem typeID_idempotent_injective :
    (∀ (k : Nat) (r : Registry),
        getComponentTypeID k (getComponentTypeID k r).2 =
          ((getComponentTypeID k r).1, (getComponentTypeID k r).2))
  ∧ (∀ ks : List Nat, ks.Nodup → ks.length ≤ 32 →
        (assignIDs ks).Nodup ∧ ∀ i ∈ assignIDs ks, i < 32) := by
  refine ⟨getComponentTypeID_idem, ?_⟩
  intro ks h1 h2
  rw [assignIDs_eq_range ks h1]
  exact ⟨(List.nodup_range _), fun i hi => lt_of_lt_of_le (List.mem_range.1 hi) h2⟩

/-- Witness for `typeID_idempotent_injective` at three distinct kinds. -/
theorem typeID_idempotent_injective_witness :
    (assignIDs [5, 9, 7]).Nodup ∧ ∀ i ∈ assignIDs [5, 9, 7], i < 32 :=
  typeID_idempotent_injective.2 [5, 9, 7] (by decide) (by decide)

/-- C7: when `addComponent` for a not-yet-held kind succeeds, the capability
bit for that kind is set, `getComponent` returns exactly the address that
`addComponent` produced and returned (the new component's slot at the end of
the sequence), and the previously owned components are neither replaced nor
reordered: the old sequence is preserved as a prefix with the one new
component appended. -/
theorem addComponent_get_identical (e : Entity) (t : Fin 32) (c : Comp)
    (e' : Entity) (r : Nat) (h : e.addComponent t c = .ok (e', r)) :
    e'.hasComponent t = true
  ∧ e'.getComponent t = .ok r
  ∧ r = e.mComponentsContainer.length
  ∧ ∃ cNew, e'.mComponentsContainer = e.mComponentsContainer ++ [cNew] := by
  simp only [Entity.addComponent] at h
  split at h
  · exact absurd h (by simp)
  · split at h
    · exact absurd h (by simp)
    · rename_i c1 heq
      simp only [Except.ok.injEq, Prod.mk.injEq] at h
      obtain ⟨he, hr⟩ := h
      subst he
      subst hr
      refine ⟨?_, ?_, rfl, ?_⟩
      · simp [Entity.hasComponent, Entity.installComponent, updFn]
      · simp [Entity.getComponent, Entity.installComponent, updFn]
      · exact ⟨c1, by simp [Entity.installComponent, set_append_length]⟩

/-- Witness for `addComponent_get_identical`: adding a counter component to
a fresh entity at kind id 0 succeeds with address 0 and `getComponent`
returns that same address. -/
theorem addComponent_get_identical_witness :
    (Entity.fresh 0).addComponent 0 counterComp
        = .ok ((Entity.fresh 0).afterAddAttempt 0 counterComp, 0)
  ∧ ((Entity.fresh 0).afterAddAttempt 0 counterComp).hasComponent 0 = true
  ∧ ((Entity.fresh 0).afterAddAttempt 0 counterComp).getComponent 0 = .ok 0 := by
  have h : (Entity.fresh 0).addComponent 0 counterComp
      = .ok ((Entity.fresh 0).afterAddAttempt 0 counterComp, 0) := by
    with_unfolding_all rfl
  have h2 := addComponent_get_identical _ _ _ _ _ h
  exact ⟨h, h2.1, h2.2.1⟩

/-- C8: `Entity::addGroup(g)` sets the entity's group bit `g` and appends
the entity's reference to the manager's list for `g`; a second call without
an intervening sweep appends a second, duplicate entry. -/
theorem joinGroup_appends_duplicate (m : EntityManager) (p : Nat) (g : Fin 32) :
    (m.addGroup p g).getEntitiesByGroup g = m.getEntitiesByGroup g ++ [p]
  ∧ ((m.addGroup p g).addGroup p g).getEntitiesByGroup g
      = m.getEntitiesByGroup g ++ [p, p]
  ∧ (∀ e' ∈ (m.addGroup p g).mEntityContainer, e'.eid = p → e'.hasGroup g = true) := by
  have h1 : ∀ m' : EntityManager,
      (m'.addGroup p g).getEntitiesByGroup g = m'.getEntitiesByGroup g ++ [p] := by
    intro m'
    simp [EntityManager.addGroup, EntityManager.addToGroup, EntityManager.modifyEntity,
      EntityManager.getEntitiesByGroup, updFn]
  refine ⟨h1 m, ?_, ?_⟩
  · rw [h1 _, h1 m, List.append_assoc]
    rfl
  · intro e' he' hpe
    simp only [EntityManager.addGroup, EntityManager.addToGroup,
      EntityManager.modifyEntity] at he'
    rcases List.mem_map.1 he' with ⟨a, _, hae⟩
    by_cases haeq : a.eid = p
    · rw [if_pos haeq] at hae
      rw [← hae]
      simp [Entity.hasGroup, updFn]
    · rw [if_neg haeq] at hae
      rw [← hae] at hpe
      exact absurd hpe haeq

/-- Witness for `joinGroup_appends_duplicate` on a one-entity manager. -/
theorem joinGroup_appends_duplicate_witness :
    ((EntityManager.init.addEntity.1.addGroup 0 0).addGroup 0 0).getEntitiesByGroup 0
      = EntityManager.init.addEntity.1.getEntitiesByGroup 0 ++ [0, 0] :=
  (joinGroup_appends_duplicate EntityManager.init.addEntity.1 0 0).2.1

/-- C3: `destroyObj` only clears the alive flag — it is idempotent, one-way
and touches no container, so the dead entity stays in the owning sequence
(same addresses, in order) and in every group list until the next
`updateManager`, whose sweep then removes its address from the sequence and
from every group list, after which `getEntitiesByGroup` no longer contains
it. -/
theorem markDead_lazy_removal (e : Entity) (m : EntityManager) (p : Nat) (dt : ℚ)
    (H : (m.findEntity p).isSome = true) :
    (e.destroyObj.mAlive = false
      ∧ e.destroyObj.destroyObj = e.destroyObj
      ∧ e.destroyObj.eid = e.eid
      ∧ e.destroyObj.mComponentsContainer = e.mComponentsContainer
      ∧ e.destroyObj.mComponentArray = e.mComponentArray
      ∧ e.destroyObj.mComponentBitset = e.mComponentBitset
      ∧ e.destroyObj.mGroupBitset = e.mGroupBitset)
  ∧ ((m.destroyEntity p).mEntityContainer.map Entity.eid
      = m.mEntityContainer.map Entity.eid
      ∧ (m.destroyEntity p).mGroupedEntities = m.mGroupedEntities)
  ∧ (∀ e' ∈ ((m.destroyEntity p).updateManager dt).mEntityContainer, e'.eid ≠ p)
  ∧ (∀ g : Fin 32, p ∉ ((m.destroyEntity p).updateManager dt).getEntitiesByGroup g) := by
  obtain ⟨e0, he0⟩ := Option.isSome_iff_exists.1 H
  have he0p : e0.eid = p := findEntity_eid m p e0 he0
  have hfind : (m.destroyEntity p).findEntity p = some e0.destroyObj := by
    rw [EntityManager.destroyEntity, findEntity_modifyEntity m p Entity.destroyObj destroyObj_eid,
      he0]
    simp [he0p]
  refine ⟨⟨rfl, rfl, rfl, rfl, rfl, rfl, rfl⟩, ⟨?_, rfl⟩, ?_, ?_⟩
  · show (m.mEntityContainer.map fun a => if a.eid = p then a.destroyObj else a).map Entity.eid
      = m.mEntityContainer.map Entity.eid
    induction m.mEntityContainer with
    | nil => rfl
    | cons a l ih =>
      simp only [List.map_cons, ih]
      congr 1
      split
      · rfl
      · rfl
  · intro e' he' hpe
    rw [updateManager_phases] at he'
    simp only [specUpdatePhase, specEntityCleanup, specGroupCleanup] at he'
    rcases List.mem_map.1 he' with ⟨a, ha, hae⟩
    have ha2 := List.mem_filter.1 ha
    rcases List.mem_map.1 ha2.1 with ⟨b, _, hba⟩
    have haeid : a.eid = p := by
      rw [← hae] at hpe
      rw [← updateObj_eid a dt]
      exact hpe
    by_cases hbp : b.eid = p
    · rw [if_pos hbp] at hba
      rw [← hba] at ha2
      exact absurd ha2.2 (by simp [Entity.isAlive, Entity.destroyObj])
    · rw [if_neg hbp] at hba
      rw [← hba] at haeid
      exact absurd haeid hbp
  · intro g hg
    rw [updateManager_phases] at hg
    simp only [EntityManager.getEntitiesByGroup, specUpdatePhase, specEntityCleanup,
      specGroupCleanup] at hg
    have := (List.mem_filter.1 hg).2
    rw [EntityManager.groupEntryStale, hfind] at this
    simp [Entity.isAlive, Entity.destroyObj] at this

/-- Witness for `markDead_lazy_removal`: one entity at address 0 in group 0;
after `destroyObj` and one tick it is gone from the sequence and the
group. -/
theorem markDead_lazy_removal_witness :
    (∀ e' ∈ (((EntityManager.init.addEntity.1.addGroup 0 0).destroyEntity 0).updateManager 1).mEntityContainer,
        e'.eid ≠ 0)
  ∧ (∀ g : Fin 32,
        0 ∉ (((EntityManager.init.addEntity.1.addGroup 0 0).destroyEntity 0).updateManager 1).getEntitiesByGroup g) := by
  have h := markDead_lazy_removal (Entity.fresh 0) (EntityManager.init.addEntity.1.addGroup 0 0)
    0 1 (by decide)
  exact ⟨h.2.2.1, h.2.2.2⟩

/-- C9: `Entity::deleteGroup(g)` clears only the entity's group bit `g` —
every other bit and field is untouched, and the manager's group-`g` list is
not changed by the call itself; the stale entry is purged only at the
manager's next sweep. -/
theorem leaveGroup_lazy_purge (e : Entity) (m : EntityManager) (p : Nat) (g : Fin 32)
    (dt : ℚ) (H : (m.findEntity p).isSome = true) :
    ((e.deleteGroup g).mGroupBitset g = false
      ∧ (∀ g' : Fin 32, g' ≠ g → (e.deleteGroup g).mGroupBitset g' = e.mGroupBitset g')
      ∧ (e.deleteGroup g).eid = e.eid
      ∧ (e.deleteGroup g).mAlive = e.mAlive
      ∧ (e.deleteGroup g).mComponentsContainer = e.mComponentsContainer
      ∧ (e.deleteGroup g).mComponentArray = e.mComponentArray
      ∧ (e.deleteGroup g).mComponentBitset = e.mComponentBitset)
  ∧ ((m.deleteGroupE p g).mGroupedEntities = m.mGroupedEntities)
  ∧ (p ∉ ((m.deleteGroupE p g).updateManager dt).getEntitiesByGroup g) := by
  obtain ⟨e0, he0⟩ := Option.isSome_iff_exists.1 H
  have he0p : e0.eid = p := findEntity_eid m p e0 he0
  have hfind : (m.deleteGroupE p g).findEntity p = some (e0.deleteGroup g) := by
    rw [EntityManager.deleteGroupE,
      findEntity_modifyEntity m p (fun a => a.deleteGroup g) (fun _ => rfl), he0]
    simp [he0p]
  refine ⟨⟨?_, ?_, rfl, rfl, rfl, rfl, rfl⟩, rfl, ?_⟩
  · simp [Entity.deleteGroup, updFn]
  · intro g' hg'
    exact updFn_other _ _ _ _ hg'
  · intro hg
    rw [updateManager_phases] at hg
    simp only [EntityManager.getEntitiesByGroup, specUpdatePhase, specEntityCleanup,
      specGroupCleanup] at hg
    have := (List.mem_filter.1 hg).2
    rw [EntityManager.groupEntryStale, hfind] at this
    simp [Entity.hasGroup, Entity.deleteGroup, updFn] at this

/-- Witness for `leaveGroup_lazy_purge`: one entity at address 0 joins group
0, leaves it, and the stale entry is purged by the next tick. -/
theorem leaveGroup_lazy_purge_witness :
    (((EntityManager.init.addEntity.1.addGroup 0 0).deleteGroupE 0 0).mGroupedEntities
        = (EntityManager.init.addEntity.1.addGroup 0 0).mGroupedEntities)
  ∧ (0 ∉ (((EntityManager.init.addEntity.1.addGroup 0 0).deleteGroupE 0 0).updateManager 1).getEntitiesByGroup 0) := by
  have h := leaveGroup_lazy_purge (Entity.fresh 0) (EntityManager.init.addEntity.1.addGroup 0 0)
    0 0 1 (by decide)
  exact ⟨h.2.1, h.2.2⟩

/-- C10: `addComponent` invokes the new component's `initComponent` hook
only after the back-reference, the lookup-table slot and the capability bit
are all set: the hook sees the fully installed state, in which
`getComponent` succeeds exactly for the kinds attached no later than the
new one and fails with the fatal missing-capability assertion otherwise —
so the source's `KillComponent` can be added only after `CounterComponent`
and `ShapeComponent`. -/
theorem initComponent_after_install (e : Entity) (t : Fin 32) (c : Comp)
    (hW : ∀ s : Fin 32, e.mComponentBitset s = true → (e.mComponentArray s).isSome = true)
    (hNew : e.hasComponent t = false) :
    ((e.installComponent t c).mComponentBitset t = true
      ∧ (e.installComponent t c).mComponentArray t = some e.mComponentsContainer.length
      ∧ (e.installComponent t c).mComponentsContainer.get? e.mComponentsContainer.length
          = some c.setOwnership
      ∧ c.setOwnership.ownerSet = true)
  ∧ (∀ s : Fin 32, ((e.installComponent t c).getComponent s).isOk = true
        ↔ (e.hasComponent s = true ∨ s = t))
  ∧ killBeforeShapeEntity = .error .missingCapability
  ∧ (Entity.fresh 0).addComponent killTypeID killComp = .error .missingCapability
  ∧ codeOrderEntity.isOk = true := by
  refine ⟨⟨?_, ?_, ?_, rfl⟩, ?_, ?_, ?_, ?_⟩
  · exact updFn_same _ _ _
  · exact updFn_same _ _ _
  · rw [List.get?_eq_getElem?]
    exact List.getElem?_concat_length _ _
  · intro s
    by_cases hst : s = t
    · subst hst
      simp [Entity.getComponent, Entity.installComponent, updFn, Entity.hasComponent,
        Except.isOk, Except.toBool]
    · have hb : (e.installComponent t c).mComponentBitset s = e.mComponentBitset s :=
        updFn_other _ _ _ _ hst
      have ha : (e.installComponent t c).mComponentArray s = e.mComponentArray s :=
        updFn_other _ _ _ _ hst
      rw [Entity.getComponent, hb, ha]
      by_cases hbs : e.mComponentBitset s = true
      · obtain ⟨i, hi⟩ := Option.isSome_iff_exists.1 (hW s hbs)
        simp [hbs, hi, Entity.hasComponent, Except.isOk, Except.toBool]
      · simp only [Bool.not_eq_true] at hbs
        simp [hbs, Entity.hasComponent, hst, Except.isOk, Except.toBool]
  · with_unfolding_all rfl
  · with_unfolding_all rfl
  · with_unfolding_all rfl

/-- Witness for `initComponent_after_install` on a fresh entity at kind 0,
together with the concrete source ordering consequence. -/
theorem initComponent_after_install_witness :
    ((Entity.fresh 0).installComponent 0 counterComp).mComponentBitset 0 = true
  ∧ codeOrderEntity.isOk = true := by
  have h := initComponent_after_install (Entity.fresh 0) 0 counterComp (by decide) (by decide)
  exact ⟨h.1.1, h.2.2.2.2⟩

end VolE
